import Mathlib

/-!
Shallow embedding of the pypowerwall-caching-proxy core: the connection
manager (src/connectionManager.ts), the cache manager (cache.ts revision
keyed by full URL), the response validator (src/responseValidator.ts) and
the proxy route (src/server.ts).  Times are integer milliseconds (Int,
matching JavaScript integer-valued number arithmetic); maps are modelled
as functions from String keys; the JavaScript event loop makes every
synchronous block atomic, so each such block is one Lean function.
-/

namespace PypowerwallProxy

/-- JavaScript runtime values, as far as the proxy inspects them
(null/undefined checks, typeof, string content). Objects and arrays are
abstracted to an identifier; both have JS typeof "object". -/
inductive JSValue where
  | jsNull
  | jsUndefined
  | jsStr (s : String)
  | jsNum (n : Int)
  | jsBool (b : Bool)
  | jsObj (id : Nat)
  | jsArr (id : Nat)
deriving DecidableEq, Repr

/-- JavaScript typeof operator on the modelled values. -/
def jsTypeof : JSValue → String
  | .jsNull => "object"
  | .jsUndefined => "undefined"
  | .jsStr _ => "string"
  | .jsNum _ => "number"
  | .jsBool _ => "boolean"
  | .jsObj _ => "object"
  | .jsArr _ => "object"

/-- CacheEntry from types.ts: data, headers, timestamp, ttl, staleTime. -/
structure CacheEntry where
  data : JSValue
  headers : List (String × String)
  timestamp : Int
  ttl : Int
  staleTime : Int
deriving DecidableEq, Repr

/-- BackoffState from types.ts. -/
structure BackoffState where
  consecutiveErrors : Nat
  backoffDelay : Int
  nextRetryTime : Int
  lastErrorTime : Int
deriving DecidableEq, Repr

/-- ErrorEvent from types.ts. -/
structure ErrorEvent where
  timestamp : Int
  path : String
deriving DecidableEq, Repr

/-- The payload of a BackoffError (class BackoffError extends Error in
types.ts): path, retryAfterMs, consecutiveErrors. -/
structure BackoffErrorData where
  path : String
  retryAfterMs : Int
  consecutiveErrors : Nat
deriving DecidableEq, Repr

/-- Functional update of a string-keyed map. -/
def upd {α : Type} (m : String → α) (k : String) (v : α) : String → α :=
  fun q => if q = k then v else m q

theorem upd_same {α : Type} (m : String → α) (k : String) (v : α) :
    upd m k v k = v := by
  simp [upd]

theorem upd_other {α : Type} (m : String → α) (k q : String) (v : α)
    (h : q ≠ k) : upd m k v q = m q := by
  simp [upd, h]

/-! ## Backoff bookkeeping (shared verbatim between connectionManager.ts
and cache.ts: recordError / recordSuccess / isInBackoff / getBackoffDelay). -/

/-- INITIAL_BACKOFF_DELAY = 5000 ms. -/
def INITIAL_BACKOFF_DELAY : Int := 5000

/-- MAX_BACKOFF_DELAY = 300000 ms. -/
def MAX_BACKOFF_DELAY : Int := 300000

/-- BACKOFF_MULTIPLIER = 2. -/
def BACKOFF_MULTIPLIER : Int := 2

/-- ERROR_WINDOW_MS = 10 minutes. -/
def ERROR_WINDOW_MS : Int := 10 * 60 * 1000

/-- The backoff-state part of recordError: take the existing state (or the
zero default), increment consecutiveErrors, set the delay to the initial
5000 ms on the first error and otherwise double it capped at 300000 ms,
and set nextRetryTime := now + delay. -/
def recordErrorB (now : Int) (prev : Option BackoffState) : BackoffState :=
  let b := prev.getD ⟨0, 0, 0, 0⟩
  let c := b.consecutiveErrors + 1
  let d := if c = 1 then INITIAL_BACKOFF_DELAY
           else min (b.backoffDelay * BACKOFF_MULTIPLIER) MAX_BACKOFF_DELAY
  ⟨c, d, now + d, now⟩

/-- recordSuccess: delete the backoff state for the path when one exists
with consecutiveErrors > 0; otherwise leave the map unchanged. -/
def recordSuccessB (m : String → Option BackoffState) (path : String) :
    String → Option BackoffState :=
  match m path with
  | some b => if 0 < b.consecutiveErrors then upd m path none else m
  | none => m

/-- isInBackoff: a path is in backoff when a state exists and now is
before its nextRetryTime. -/
def isInBackoff (now : Int) (m : String → Option BackoffState)
    (path : String) : Bool :=
  match m path with
  | some b => decide (now < b.nextRetryTime)
  | none => false

/-- getBackoffDelay: Math.max(0, nextRetryTime - now), 0 with no state. -/
def getBackoffDelay (now : Int) (m : String → Option BackoffState)
    (path : String) : Int :=
  match m path with
  | some b => max 0 (b.nextRetryTime - now)
  | none => 0

/-- Push an error event and age out events older than the 10-minute
window, exactly as recordError does before touching the backoff map. -/
def pushErrorEvent (now : Int) (path : String) (evs : List ErrorEvent) :
    List ErrorEvent :=
  (evs ++ [ErrorEvent.mk now path]).filter
    (fun ev => now - ev.timestamp < ERROR_WINDOW_MS)

/-- The backoff state reached from no state by a list of consecutive
failures at the given times (recordErrorB folded over the failure times,
oldest first). -/
def failSeq (times : List Int) : Option BackoffState :=
  times.foldl (fun st t => some (recordErrorB t st)) none

/-! ## Connection Manager (src/connectionManager.ts, bounded-concurrency
revision).  The while loop of processQueue runs synchronously (one event-loop
turn), so it is one function; enqueue-then-processQueue and
complete-then-processQueue are the atomic steps of the transition system. -/

/-- QueuedRequest: fullUrl, queuedAt; the resolve/reject callback pair is
abstracted to a numeric identity. -/
structure QueuedRequest where
  fullUrl : String
  queuedAt : Int
  id : Nat
deriving DecidableEq, Repr

/-- CompletedRequest ring entry. -/
structure CompletedRequest where
  fullUrl : String
  startTime : Int
  endTime : Int
  runtimeMs : Int
  success : Bool
deriving DecidableEq, Repr

/-- MAX_RECENT_REQUESTS = 20. -/
def MAX_RECENT_REQUESTS : Nat := 20

/-- Mutable fields of class ConnectionManager. -/
structure ConnectionManager where
  requestQueue : List QueuedRequest
  activeRequestCount : Nat
  maxConcurrentRequests : Nat
  activeUrls : List String
  recentlyCompleted : List CompletedRequest
  backoffStates : String → Option BackoffState
  errorEvents : List ErrorEvent

/-- Constructor: maxConcurrentRequests = config.backend.maxConcurrentRequests
|| 2 (JavaScript ||, so an absent or zero configured value yields 2);
queue empty, no active requests, no backoff. -/
def mkConnectionManager (cfgMax : Option Nat) : ConnectionManager where
  requestQueue := []
  activeRequestCount := 0
  maxConcurrentRequests := match cfgMax with
    | some n => if n = 0 then 2 else n
    | none => 2
  activeUrls := []
  recentlyCompleted := []
  backoffStates := fun _ => none
  errorEvents := []

/-- The while loop of processQueue: while the queue is non-empty and
activeRequestCount < maxConcurrentRequests, shift the head, increment the
active count and mark the URL active; the shifted requests are launched
asynchronously.  Returns (remaining queue, new active count, requests
dispatched in order). -/
def processQueueAux : List QueuedRequest → Nat → Nat →
    List QueuedRequest × Nat × List QueuedRequest
  | [], a, _ => ([], a, [])
  | r :: rest, a, m =>
    if a < m then
      let (q, aNext, d) := processQueueAux rest (a + 1) m
      (q, aNext, r :: d)
    else (r :: rest, a, [])

/-- processQueue as a state transformer: run the dispatch loop and record
the dispatched URLs as active. -/
def processQueue (s : ConnectionManager) :
    ConnectionManager × List QueuedRequest :=
  let (q, a, d) := processQueueAux s.requestQueue s.activeRequestCount
      s.maxConcurrentRequests
  ({ s with requestQueue := q, activeRequestCount := a,
            activeUrls := s.activeUrls ++ d.map (·.fullUrl) }, d)

/-- Synchronous part of ConnectionManager.fetch: if the key is in backoff,
reject immediately with BackoffError(fullUrl, remaining delay,
consecutiveErrors || 0) and touch nothing; otherwise push a QueuedRequest
and trigger processQueue. -/
def cmFetch (now : Int) (url : String) (reqId : Nat)
    (s : ConnectionManager) : Option BackoffErrorData × ConnectionManager :=
  if isInBackoff now s.backoffStates url then
    (some ⟨url, getBackoffDelay now s.backoffStates url,
           (match s.backoffStates url with
            | some b => b.consecutiveErrors
            | none => 0)⟩, s)
  else
    (none,
     (processQueue
       { s with requestQueue := s.requestQueue ++ [⟨url, now, reqId⟩] }).1)

/-- Completion of an in-flight request (the finally blocks of
executeAndTrackRequest and of the dispatch callback): decrement the active
count, drop the URL from the active set, unshift the CompletedRequest onto
the ring truncated to 20, then re-trigger processQueue via setImmediate. -/
def cmComplete (url : String) (startTime endTime : Int) (success : Bool)
    (s : ConnectionManager) : ConnectionManager :=
  (processQueue
    { s with
      activeRequestCount := s.activeRequestCount - 1,
      activeUrls := s.activeUrls.erase url,
      recentlyCompleted :=
        (CompletedRequest.mk url startTime endTime (endTime - startTime)
          success :: s.recentlyCompleted).take MAX_RECENT_REQUESTS }).1

/-- executeRequest success continuation on the backoff map. -/
def cmExecSuccess (url : String) (s : ConnectionManager) : ConnectionManager :=
  { s with backoffStates := recordSuccessB s.backoffStates url }

/-- executeRequest failure continuation: recordError (event push + backoff
update). -/
def cmExecFailure (now : Int) (url : String) (s : ConnectionManager) :
    ConnectionManager :=
  { s with
    errorEvents := pushErrorEvent now url s.errorEvents,
    backoffStates :=
      upd s.backoffStates url (some (recordErrorB now (s.backoffStates url))) }

/-- Reachable ConnectionManager states: initial state followed by any
interleaving of fetch, completion (of some in-flight request) and the
success/failure bookkeeping of executeRequest. -/
inductive CMReach : ConnectionManager → Prop
  | init (cfgMax : Option Nat) : CMReach (mkConnectionManager cfgMax)
  | fetch (now : Int) (url : String) (reqId : Nat) (s : ConnectionManager) :
      CMReach s → CMReach (cmFetch now url reqId s).2
  | complete (url : String) (t₁ t₂ : Int) (ok : Bool) (s : ConnectionManager) :
      CMReach s → 0 < s.activeRequestCount →
      CMReach (cmComplete url t₁ t₂ ok s)
  | execSuccess (url : String) (s : ConnectionManager) :
      CMReach s → CMReach (cmExecSuccess url s)
  | execFailure (now : Int) (url : String) (s : ConnectionManager) :
      CMReach s → CMReach (cmExecFailure now url s)

theorem processQueueAux_le (q : List QueuedRequest) (a m : Nat)
    (h : a ≤ m) : (processQueueAux q a m).2.1 ≤ m := by
  induction q generalizing a with
  | nil => simpa [processQueueAux] using h
  | cons r rest ih =>
    by_cases hc : a < m
    · simpa [processQueueAux, hc] using ih (a + 1) hc
    · simpa [processQueueAux, hc] using h

theorem processQueue_le {s : ConnectionManager}
    (h : s.activeRequestCount ≤ s.maxConcurrentRequests) :
    (processQueue s).1.activeRequestCount ≤
      (processQueue s).1.maxConcurrentRequests := by
  simpa [processQueue] using
    processQueueAux_le s.requestQueue s.activeRequestCount
      s.maxConcurrentRequests h

theorem cmReach_cap {s : ConnectionManager} (h : CMReach s) :
    s.activeRequestCount ≤ s.maxConcurrentRequests := by
  induction h with
  | init cfgMax => simp [mkConnectionManager]
  | fetch now url reqId s _ ih =>
    by_cases hb : isInBackoff now s.backoffStates url
    · simp only [cmFetch, hb, if_true]
      exact ih
    · simp only [cmFetch, hb, if_false, Bool.false_eq_true]
      exact processQueue_le ih
  | complete url t₁ t₂ ok s _ hact ih =>
    exact processQueue_le (Nat.le_trans (Nat.sub_le _ _) ih)
  | execSuccess url s _ ih => simpa [cmExecSuccess] using ih
  | execFailure now url s _ ih => simpa [cmExecFailure] using ih

theorem processQueueAux_stuck (q : List QueuedRequest) (a m : Nat)
    (h : m ≤ a) : processQueueAux q a m = (q, a, []) := by
  cases q with
  | nil => rfl
  | cons r rest => simp [processQueueAux, Nat.not_lt.mpr h]

theorem failSeq_snoc (ts : List Int) (t : Int) :
    failSeq (ts ++ [t]) = some (recordErrorB t (failSeq ts)) := by
  simp [failSeq, List.foldl_append]

theorem min_double_cap (x : Int) :
    min (min x 300000 * 2) 300000 = min (x * 2) 300000 := by
  rcases le_total x 300000 with hle | hge
  · rw [min_eq_left hle]
  · rw [min_eq_right hge, min_eq_right (by linarith), min_eq_right (by linarith)]

theorem failSeq_spec (ts : List Int) (t : Int) :
    ∃ b, failSeq (ts ++ [t]) = some b ∧
      b.consecutiveErrors = ts.length + 1 ∧
      b.backoffDelay = min (5000 * 2 ^ ts.length) 300000 ∧
      b.nextRetryTime = t + b.backoffDelay ∧
      b.lastErrorTime = t := by
  induction ts using List.reverseRecOn generalizing t with
  | nil =>
    refine ⟨recordErrorB t none, rfl, ?_⟩
    simp [recordErrorB, INITIAL_BACKOFF_DELAY]
  | append_singleton ts t' ih =>
    obtain ⟨b, hb, hc, hd, _, _⟩ := ih t'
    refine ⟨recordErrorB t (failSeq (ts ++ [t'])), failSeq_snoc _ t, ?_, ?_, ?_, ?_⟩
    · simp [recordErrorB, hb, hc]
    · simp only [recordErrorB, hb, Option.getD_some, hc, hd]
      rw [if_neg (by omega)]
      have : (5000:Int) * 2 ^ (ts.length + 1) = 5000 * 2 ^ ts.length * 2 := by
        ring
      simp only [BACKOFF_MULTIPLIER, MAX_BACKOFF_DELAY, List.length_append,
        List.length_singleton, this]
      exact min_double_cap _
    · simp [recordErrorB, hb, hc, List.length_append]
    · simp [recordErrorB, hb]

/-- Claim C3: the first upstream failure for a key sets the backoff delay to 5 s
and nextRetryTime = now + delay; the k-th consecutive failure yields delay
min(5000·2^(k−1), 300000) ms — the sequence 5s, 10s, 20s, …, 300s — with
nextRetryTime = failure time + delay; and a success on a key with a backoff
state of positive consecutive errors removes the key from the backoff map
entirely. -/
theorem backoff_monotone_and_reset :
    (∀ now : Int, recordErrorB now none =
        ⟨1, 5000, now + 5000, now⟩)
    ∧ (∀ (ts : List Int) (t : Int), ∃ b,
        failSeq (ts ++ [t]) = some b ∧
        b.consecutiveErrors = ts.length + 1 ∧
        b.backoffDelay = min (5000 * 2 ^ ts.length) 300000 ∧
        b.nextRetryTime = t + b.backoffDelay)
    ∧ (∀ (m : String → Option BackoffState) (path : String) (b : BackoffState),
        m path = some b → 0 < b.consecutiveErrors →
        recordSuccessB m path path = none) := by
  refine ⟨?_, ?_, ?_⟩
  · intro now
    simp [recordErrorB, INITIAL_BACKOFF_DELAY]
  · intro ts t
    obtain ⟨b, h1, h2, h3, h4, _⟩ := failSeq_spec ts t
    exact ⟨b, h1, h2, h3, h4⟩
  · intro m path b hm hpos
    simp [recordSuccessB, hm, hpos, upd]

/-- Witness for backoff_monotone_and_reset: three consecutive failures at
times 0, 100, 200 give 3 consecutive errors, delay 20 s and next retry at
200 + 20000; a success on that state deletes it. -/
theorem backoff_monotone_and_reset_witness :
    recordErrorB 7 none = ⟨1, 5000, 7 + 5000, 7⟩
    ∧ (∃ b, failSeq ([0, 100] ++ [200]) = some b ∧
        b.consecutiveErrors = 3 ∧
        b.backoffDelay = min (5000 * 2 ^ 2) 300000 ∧
        b.nextRetryTime = 200 + b.backoffDelay)
    ∧ recordSuccessB
        (upd (fun _ => none) "/soe" (some ⟨3, 20000, 220200, 200⟩))
        "/soe" "/soe" = none := by
  refine ⟨backoff_monotone_and_reset.1 7,
    backoff_monotone_and_reset.2.1 [0, 100] 200,
    backoff_monotone_and_reset.2.2 _ "/soe" ⟨3, 20000, 220200, 200⟩
      (upd_same _ _ _) (by decide)⟩

/-- Claim C2: every reachable ConnectionManager state has at most
maxConcurrentRequests in-flight upstream requests; the dispatch loop pops
nothing once the active count reaches the cap and dispatches the queue
head only while strictly below it (incrementing the count); completing a
request with an empty queue decrements the count; the default cap is 2. -/
theorem concurrency_cap :
    (∀ s : ConnectionManager, CMReach s →
        s.activeRequestCount ≤ s.maxConcurrentRequests)
    ∧ (∀ (q : List QueuedRequest) (a m : Nat), m ≤ a →
        processQueueAux q a m = (q, a, []))
    ∧ (∀ (r : QueuedRequest) (rest : List QueuedRequest) (a m : Nat),
        a < m → processQueueAux (r :: rest) a m =
          ((processQueueAux rest (a + 1) m).1,
           (processQueueAux rest (a + 1) m).2.1,
           r :: (processQueueAux rest (a + 1) m).2.2))
    ∧ (∀ (url : String) (t₁ t₂ : Int) (ok : Bool) (s : ConnectionManager),
        s.requestQueue = [] →
        (cmComplete url t₁ t₂ ok s).activeRequestCount =
          s.activeRequestCount - 1)
    ∧ (mkConnectionManager none).maxConcurrentRequests = 2 := by
  refine ⟨fun s h => cmReach_cap h, processQueueAux_stuck, ?_, ?_, rfl⟩
  · intro r rest a m h
    simp [processQueueAux, h]
  · intro url t₁ t₂ ok s hq
    simp [cmComplete, processQueue, hq, processQueueAux]

/-- Witness for concurrency_cap: the initial state with cap 3 satisfies the
cap; a full dispatch loop at the cap pops nothing; below the cap it
dispatches the head; completing with an empty queue decrements. -/
theorem concurrency_cap_witness :
    (mkConnectionManager (some 3)).activeRequestCount ≤
      (mkConnectionManager (some 3)).maxConcurrentRequests
    ∧ processQueueAux [⟨"/aggregates", 0, 0⟩] 2 2 =
        ([⟨"/aggregates", 0, 0⟩], 2, [])
    ∧ processQueueAux [⟨"/aggregates", 0, 0⟩] 1 2 =
        ((processQueueAux [] 2 2).1, (processQueueAux [] 2 2).2.1,
         ⟨"/aggregates", 0, 0⟩ :: (processQueueAux [] 2 2).2.2)
    ∧ (cmComplete "/soe" 0 40 true (mkConnectionManager none)).activeRequestCount
        = (mkConnectionManager none).activeRequestCount - 1
    ∧ (mkConnectionManager none).maxConcurrentRequests = 2 :=
  ⟨concurrency_cap.1 _ (CMReach.init (some 3)),
   concurrency_cap.2.1 _ 2 2 (by decide),
   concurrency_cap.2.2.1 _ [] 1 2 (by decide),
   concurrency_cap.2.2.2.1 "/soe" 0 40 true _ rfl,
   concurrency_cap.2.2.2.2⟩

/-! ## Cache Manager (cache.ts revision keyed by full URL).  Every
synchronous block is one function: get (no internal await), the prefix of
fetchFromBackend up to and including registration of the pending request,
and the post-await completion of the request promise including its finally
block. -/

/-- UrlConfig entry from types.ts (path is the map key). -/
structure UrlConfigData where
  pollInterval : Option Int
  cacheTTL : Option Int
  staleTime : Option Int
deriving DecidableEq, Repr

/-- The configuration slice the cache manager reads: the urlConfigs map
built in the constructor and the cache defaults (seconds resp. ms). -/
structure ProxyConfigData where
  urlConfigs : String → Option UrlConfigData
  defaultTTL : Int
  defaultStaleTime : Int
  slowRequestTimeout : Int

/-- getCacheTTL: the configured cacheTTL of the path in seconds ×1000 when
defined, otherwise the default TTL ×1000. -/
def getCacheTTL (cfg : ProxyConfigData) (path : String) : Int :=
  match cfg.urlConfigs path with
  | some u =>
    match u.cacheTTL with
    | some t => t * 1000
    | none => cfg.defaultTTL * 1000
  | none => cfg.defaultTTL * 1000

/-- getStaleTime: like getCacheTTL with the staleTime fields. -/
def getStaleTime (cfg : ProxyConfigData) (path : String) : Int :=
  match cfg.urlConfigs path with
  | some u =>
    match u.staleTime with
    | some t => t * 1000
    | none => cfg.defaultStaleTime * 1000
  | none => cfg.defaultStaleTime * 1000

/-- isCacheValid: now − entry.timestamp < entry.ttl. -/
def isCacheValid (now : Int) (e : CacheEntry) : Bool :=
  decide (now - e.timestamp < e.ttl)

/-- isCacheStale: now − entry.timestamp ≥ entry.staleTime. -/
def isCacheStale (now : Int) (e : CacheEntry) : Bool :=
  decide (now - e.timestamp ≥ e.staleTime)

/-- Mutable fields of class CacheManager, plus instrumentation (history
variables, marked ghost) that count externally observable events so the
claims can be stated: upstream requests issued, background stale
refreshes scheduled by setImmediate, and plugin notifyResponse calls. -/
structure CacheManager where
  cache : String → Option CacheEntry
  pendingRequests : String → Option Nat
  staleUpdateQueue : String → Bool
  cacheStats : String → Nat × Nat
  backoffStates : String → Option BackoffState
  errorEvents : List ErrorEvent
  nextPromiseId : Nat
  /-- ghost: upstream axios.get calls issued, per key. -/
  upstreamCalls : String → Nat
  /-- ghost: background refreshes scheduled by queueStaleUpdate, per key. -/
  scheduledRefreshes : String → Nat
  /-- ghost: pluginManager.notifyResponse events, newest first. -/
  notifyLog : List (String × JSValue)

/-- The CacheManager as constructed: all maps empty. -/
def emptyCacheManager : CacheManager where
  cache := fun _ => none
  pendingRequests := fun _ => none
  staleUpdateQueue := fun _ => false
  cacheStats := fun _ => (0, 0)
  backoffStates := fun _ => none
  errorEvents := []
  nextPromiseId := 0
  upstreamCalls := fun _ => 0
  scheduledRefreshes := fun _ => 0
  notifyLog := []

/-- queueStaleUpdate: add the key to the stale-update set and schedule the
asynchronous fetchFromBackend (counted by the ghost field; the scheduled
task itself runs later as fetch steps followed by staleDone). -/
def queueStaleUpdate (s : CacheManager) (url : String) : CacheManager :=
  { s with
    staleUpdateQueue := upd s.staleUpdateQueue url true,
    scheduledRefreshes :=
      upd s.scheduledRefreshes url (s.scheduledRefreshes url + 1) }

/-- The finally block of the task scheduled by queueStaleUpdate: remove the key
from the stale-update set. -/
def staleDone (url : String) (s : CacheManager) : CacheManager :=
  { s with staleUpdateQueue := upd s.staleUpdateQueue url false }

/-- CacheManager.get: if a cached entry exists and is within TTL, queue a
background update when it is stale and not already queued, increment the
hit counter of the key and return it; otherwise increment the miss counter and
return null. -/
def getStep (now : Int) (s : CacheManager) (url : String) :
    Option CacheEntry × CacheManager :=
  match s.cache url with
  | some e =>
    if isCacheValid now e then
      let s₁ := if isCacheStale now e ∧ s.staleUpdateQueue url = false then
          queueStaleUpdate s url
        else s
      let st := s₁.cacheStats url
      (some e, { s₁ with cacheStats := upd s₁.cacheStats url (st.1 + 1, st.2) })
    else
      let st := s.cacheStats url
      (none, { s with cacheStats := upd s.cacheStats url (st.1, st.2 + 1) })
  | none =>
    let st := s.cacheStats url
    (none, { s with cacheStats := upd s.cacheStats url (st.1, st.2 + 1) })

/-- CacheManager.set: insert an entry stamped now with the resolved
ttl and staleTime. -/
def setStep (cfg : ProxyConfigData) (now : Int) (url : String)
    (data : JSValue) (headers : List (String × String)) (s : CacheManager) :
    CacheManager :=
  let e : CacheEntry :=
    ⟨data, headers, now, getCacheTTL cfg url, getStaleTime cfg url⟩
  { s with cache := upd s.cache url (some e) }

/-- Result of the synchronous prefix of fetchFromBackend. -/
inductive FetchStartResult where
  | backoffCached (e : CacheEntry)
  | backoffError (err : BackoffErrorData)
  | joined (pid : Nat)
  | started (pid : Nat)
deriving DecidableEq, Repr

/-- Synchronous prefix of CacheManager.fetchFromBackend: in backoff,
return the cached entry when valid, otherwise throw BackoffError; then, if
a pending request exists for the key, return its promise; otherwise start
the upstream request and register the pending promise (the request body
suspends at await axios.get, so creation, the ghost upstream-call count
and pendingRequests.set are one atomic block). -/
def fetchStart (now : Int) (s : CacheManager) (url : String) :
    FetchStartResult × CacheManager :=
  if isInBackoff now s.backoffStates url then
    match s.cache url with
    | some e =>
      if isCacheValid now e then (.backoffCached e, s)
      else
        (.backoffError ⟨url, getBackoffDelay now s.backoffStates url,
          (match s.backoffStates url with
           | some b => b.consecutiveErrors
           | none => 0)⟩, s)
    | none =>
      (.backoffError ⟨url, getBackoffDelay now s.backoffStates url,
        (match s.backoffStates url with
         | some b => b.consecutiveErrors
         | none => 0)⟩, s)
  else
    match s.pendingRequests url with
    | some pid => (.joined pid, s)
    | none =>
      (.started s.nextPromiseId,
       { s with
         pendingRequests := upd s.pendingRequests url (some s.nextPromiseId),
         nextPromiseId := s.nextPromiseId + 1,
         upstreamCalls := upd s.upstreamCalls url (s.upstreamCalls url + 1) })

/-- Completion of the request promise when axios.get succeeded: build the
entry, cache.set it, recordSuccess on the backoff map, notify plugins,
and delete the pending request in the finally block — one synchronous
block. -/
def fetchSuccess (cfg : ProxyConfigData) (now : Int) (url : String)
    (data : JSValue) (headers : List (String × String)) (s : CacheManager) :
    CacheManager :=
  let e : CacheEntry :=
    ⟨data, headers, now, getCacheTTL cfg url, getStaleTime cfg url⟩
  { s with
    cache := upd s.cache url (some e),
    backoffStates := recordSuccessB s.backoffStates url,
    notifyLog := (url, data) :: s.notifyLog,
    pendingRequests := upd s.pendingRequests url none }

/-- Completion of the request promise when axios.get failed: recordError
(event push + backoff update) and delete the pending request; the cache
map is not touched. -/
def fetchFailure (now : Int) (url : String) (s : CacheManager) :
    CacheManager :=
  { s with
    errorEvents := pushErrorEvent now url s.errorEvents,
    backoffStates :=
      upd s.backoffStates url (some (recordErrorB now (s.backoffStates url))),
    pendingRequests := upd s.pendingRequests url none }

/-- CacheManager.clearCache: clear the cache map only. -/
def clearCacheStep (s : CacheManager) : CacheManager :=
  { s with cache := fun _ => none }

/-- Claim C5: a lookup of a stored entry returns it iff now − timestamp < ttl;
it increments the hit counter exactly when it returns the entry and the
miss counter otherwise; a returned entry with now − timestamp ≥ staleTime
and key not yet in the stale-update set schedules exactly one background
refresh and marks the key; a key already marked schedules nothing, so a
second lookup in the same stale window schedules no further refresh. -/
theorem lookup_freshness_swr :
    (∀ (now : Int) (s : CacheManager) (url : String) (e : CacheEntry),
      s.cache url = some e →
      ((getStep now s url).1 = some e ↔ now - e.timestamp < e.ttl))
    ∧ (∀ (now : Int) (s : CacheManager) (url : String) (e : CacheEntry),
        s.cache url = some e → now - e.timestamp < e.ttl →
        (getStep now s url).2.cacheStats url =
          ((s.cacheStats url).1 + 1, (s.cacheStats url).2))
    ∧ (∀ (now : Int) (s : CacheManager) (url : String),
        (getStep now s url).1 = none →
        (getStep now s url).2.cacheStats url =
          ((s.cacheStats url).1, (s.cacheStats url).2 + 1))
    ∧ (∀ (now : Int) (s : CacheManager) (url : String) (e : CacheEntry),
        s.cache url = some e → now - e.timestamp < e.ttl →
        e.staleTime ≤ now - e.timestamp → s.staleUpdateQueue url = false →
        (getStep now s url).2.scheduledRefreshes url =
            s.scheduledRefreshes url + 1 ∧
        (getStep now s url).2.staleUpdateQueue url = true)
    ∧ (∀ (now : Int) (s : CacheManager) (url : String),
        s.staleUpdateQueue url = true →
        (getStep now s url).2.scheduledRefreshes url =
          s.scheduledRefreshes url)
    ∧ (∀ (now now₂ : Int) (s : CacheManager) (url : String) (e : CacheEntry),
        s.cache url = some e → now - e.timestamp < e.ttl →
        e.staleTime ≤ now - e.timestamp → s.staleUpdateQueue url = false →
        (getStep now₂ (getStep now s url).2 url).2.scheduledRefreshes url =
          (getStep now s url).2.scheduledRefreshes url) := by
  have hnosched : ∀ (now : Int) (s : CacheManager) (url : String),
      s.staleUpdateQueue url = true →
      (getStep now s url).2.scheduledRefreshes url =
        s.scheduledRefreshes url := by
    intro now s url hq
    rcases hcu : s.cache url with _ | e
    · simp [getStep, hcu]
    · by_cases hv : isCacheValid now e
      · simp [getStep, hcu, hv, hq]
      · simp [getStep, hcu, hv]
  have hmark : ∀ (now : Int) (s : CacheManager) (url : String) (e : CacheEntry),
      s.cache url = some e → now - e.timestamp < e.ttl →
      e.staleTime ≤ now - e.timestamp → s.staleUpdateQueue url = false →
      (getStep now s url).2.scheduledRefreshes url =
          s.scheduledRefreshes url + 1 ∧
      (getStep now s url).2.staleUpdateQueue url = true := by
    intro now s url e hcu hv hst hq
    simp [getStep, hcu, isCacheValid, hv, isCacheStale, hst, hq,
      queueStaleUpdate, upd]
  refine ⟨?_, ?_, ?_, hmark, hnosched, ?_⟩
  · intro now s url e hcu
    by_cases hv : now - e.timestamp < e.ttl
    · simp [getStep, hcu, isCacheValid, hv]
    · simp [getStep, hcu, isCacheValid, hv]
  · intro now s url e hcu hv
    by_cases hs : isCacheStale now e = true ∧ s.staleUpdateQueue url = false
    · simp [getStep, hcu, isCacheValid, hv, hs, queueStaleUpdate, upd]
    · simp [getStep, hcu, isCacheValid, hv, hs, upd]
  · intro now s url hres
    rcases hcu : s.cache url with _ | e
    · simp [getStep, hcu, upd]
    · by_cases hv : isCacheValid now e
      · simp [getStep, hcu, hv] at hres
      · simp [getStep, hcu, hv, upd]
  · intro now now₂ s url e hcu hv hst hq
    exact hnosched now₂ _ url ((hmark now s url e hcu hv hst hq).2)

/-- Witness for lookup_freshness_swr: an entry fetched at time 0 with
ttl 30000 and staleTime 10000, looked up at time 15000 from a state with
an unmarked key: it is returned, counts a hit, schedules one refresh and
marks the key; the marked state schedules nothing more at 16000. -/
theorem lookup_freshness_swr_witness :
    (getStep 15000
        { emptyCacheManager with
          cache := upd emptyCacheManager.cache "/aggregates"
            (some ⟨JSValue.jsObj 0, [], 0, 30000, 10000⟩) }
        "/aggregates").1 = some ⟨JSValue.jsObj 0, [], 0, 30000, 10000⟩
    ∧ (getStep 15000
        { emptyCacheManager with
          cache := upd emptyCacheManager.cache "/aggregates"
            (some ⟨JSValue.jsObj 0, [], 0, 30000, 10000⟩) }
        "/aggregates").2.cacheStats "/aggregates" = (1, 0)
    ∧ (getStep 15000
        { emptyCacheManager with
          cache := upd emptyCacheManager.cache "/aggregates"
            (some ⟨JSValue.jsObj 0, [], 0, 30000, 10000⟩) }
        "/aggregates").2.scheduledRefreshes "/aggregates" = 1
    ∧ (getStep 16000
        (getStep 15000
          { emptyCacheManager with
            cache := upd emptyCacheManager.cache "/aggregates"
              (some ⟨JSValue.jsObj 0, [], 0, 30000, 10000⟩) }
          "/aggregates").2
        "/aggregates").2.scheduledRefreshes "/aggregates" = 1 := by
  have hcu : ({ emptyCacheManager with
      cache := upd emptyCacheManager.cache "/aggregates"
        (some ⟨JSValue.jsObj 0, [], 0, 30000, 10000⟩) } :
        CacheManager).cache "/aggregates"
      = some ⟨JSValue.jsObj 0, [], 0, 30000, 10000⟩ := by simp [upd]
  refine ⟨?_, ?_, ?_, ?_⟩
  · exact (lookup_freshness_swr.1 15000 _ "/aggregates" _ hcu).mpr (by decide)
  · have := lookup_freshness_swr.2.1 15000 _ "/aggregates" _ hcu (by decide)
    simpa [emptyCacheManager] using this
  · have := (lookup_freshness_swr.2.2.2.1 15000 _ "/aggregates" _ hcu
      (by decide) (by decide) rfl).1
    simpa [emptyCacheManager] using this
  · have hsched := lookup_freshness_swr.2.2.2.2.2 15000 16000 _ "/aggregates"
      _ hcu (by decide) (by decide) rfl
    have hone := (lookup_freshness_swr.2.2.2.1 15000 _ "/aggregates" _ hcu
      (by decide) (by decide) rfl).1
    rw [hsched, hone]
    simp [emptyCacheManager]

/-! ## getOrFetch (cache.ts).  The Promise.race of the backend fetch
against the slow timeout is abstracted by its outcome: either the fetch
settled first (with a value or an error) or the timeout fired first, in
which case the eventual settlement of the fetch is also recorded, since the
code may keep waiting for it. -/

/-- Errors a fetch promise can reject with. -/
inductive FetchError where
  | backoffErr (err : BackoffErrorData)
  | upstreamErr (id : Nat)
deriving DecidableEq, Repr

/-- Outcome of the race between fetchFromBackend and the slow timeout. -/
inductive RaceOutcome where
  | fetchFirst (r : Except FetchError CacheEntry)
  | timeoutFirst (eventual : Except FetchError CacheEntry)
deriving Repr

/-- The miss path of CacheManager.getOrFetch after the cache lookup
returned null, as a function of the cache map at the later reads and the
race outcome: a fetch value is returned with fromCache=false; a timeout
first returns a stale entry when one exists and otherwise awaits the
fetch; an error returns a stale entry when one exists and is otherwise
propagated. -/
def getOrFetchMiss (cache : String → Option CacheEntry) (url : String)
    (o : RaceOutcome) : Except FetchError (CacheEntry × Bool) :=
  match o with
  | .fetchFirst (.ok e) => .ok (e, false)
  | .fetchFirst (.error err) =>
    match cache url with
    | some stale => .ok (stale, true)
    | none => .error err
  | .timeoutFirst ev =>
    match cache url with
    | some stale => .ok (stale, true)
    | none =>
      match ev with
      | .ok e => .ok (e, false)
      | .error err =>
        match cache url with
        | some stale => .ok (stale, true)
        | none => .error err

/-- CacheManager.getOrFetch: the cache lookup, then on a hit the entry
with fromCache=true, otherwise the miss path. -/
def getOrFetchStep (now : Int) (s : CacheManager) (url : String)
    (o : RaceOutcome) :
    Except FetchError (CacheEntry × Bool) × CacheManager :=
  let (c, s₁) := getStep now s url
  match c with
  | some e => (.ok (e, true), s₁)
  | none => (getOrFetchMiss s₁.cache url o, s₁)

/-- Claim C6: on the miss path of getOrFetch, a failed fetch returns any stored
entry (no TTL condition) with fromCache=true and propagates the error only
when no entry exists; a timeout with a stored entry returns it with
fromCache=true; a timeout with no entry keeps waiting for the fetch,
returning its value with fromCache=false on success, and even then an
error falls back to a stored entry before propagating. -/
theorem stale_fallback_getOrFetch :
    (∀ (cache : String → Option CacheEntry) (url : String)
        (err : FetchError) (e : CacheEntry), cache url = some e →
      getOrFetchMiss cache url (.fetchFirst (.error err)) = .ok (e, true))
    ∧ (∀ (cache : String → Option CacheEntry) (url : String)
        (err : FetchError), cache url = none →
        getOrFetchMiss cache url (.fetchFirst (.error err)) = .error err)
    ∧ (∀ (cache : String → Option CacheEntry) (url : String)
        (ev : Except FetchError CacheEntry) (e : CacheEntry),
        cache url = some e →
        getOrFetchMiss cache url (.timeoutFirst ev) = .ok (e, true))
    ∧ (∀ (cache : String → Option CacheEntry) (url : String)
        (e : CacheEntry), cache url = none →
        getOrFetchMiss cache url (.timeoutFirst (.ok e)) = .ok (e, false))
    ∧ (∀ (cache : String → Option CacheEntry) (url : String)
        (err : FetchError), cache url = none →
        getOrFetchMiss cache url (.timeoutFirst (.error err)) = .error err)
    ∧ (∀ (now : Int) (s : CacheManager) (url : String) (o : RaceOutcome),
        (getStep now s url).1 = none →
        (getOrFetchStep now s url o).1 =
          getOrFetchMiss (getStep now s url).2.cache url o) := by
  refine ⟨?_, ?_, ?_, ?_, ?_, ?_⟩
  · intro cache url err e h
    simp [getOrFetchMiss, h]
  · intro cache url err h
    simp [getOrFetchMiss, h]
  · intro cache url ev e h
    simp [getOrFetchMiss, h]
  · intro cache url e h
    simp [getOrFetchMiss, h]
  · intro cache url err h
    simp [getOrFetchMiss, h]
  · intro now s url o hmiss
    simp only [getOrFetchStep]
    rw [hmiss]

/-- Witness for stale_fallback_getOrFetch: with an expired entry stored
under the key, both a failed fetch and a timeout return it from cache;
with no entry, the error propagates and a timeout keeps waiting. -/
theorem stale_fallback_getOrFetch_witness :
    getOrFetchMiss
        (upd (fun _ => none) "/soe"
          (some ⟨JSValue.jsObj 1, [], 0, 30000, 10000⟩))
        "/soe" (.fetchFirst (.error (.upstreamErr 0)))
      = .ok (⟨JSValue.jsObj 1, [], 0, 30000, 10000⟩, true)
    ∧ getOrFetchMiss (fun _ => none) "/soe"
        (.fetchFirst (.error (.upstreamErr 0)))
      = .error (.upstreamErr 0)
    ∧ getOrFetchMiss
        (upd (fun _ => none) "/soe"
          (some ⟨JSValue.jsObj 1, [], 0, 30000, 10000⟩))
        "/soe" (.timeoutFirst (.error (.upstreamErr 0)))
      = .ok (⟨JSValue.jsObj 1, [], 0, 30000, 10000⟩, true)
    ∧ getOrFetchMiss (fun _ => none) "/soe"
        (.timeoutFirst (.ok ⟨JSValue.jsObj 2, [], 9, 30000, 10000⟩))
      = .ok (⟨JSValue.jsObj 2, [], 9, 30000, 10000⟩, false) :=
  ⟨stale_fallback_getOrFetch.1 _ "/soe" _ _ (upd_same _ _ _),
   stale_fallback_getOrFetch.2.1 _ "/soe" _ rfl,
   stale_fallback_getOrFetch.2.2.1 _ "/soe" _ _ (upd_same _ _ _),
   stale_fallback_getOrFetch.2.2.2.1 _ "/soe" _ rfl⟩

/-- Claim C4: when a key has a backoff state with now < nextRetryTime,
ConnectionManager.fetch rejects immediately with a BackoffError carrying
the key, the remaining wait nextRetryTime − now (Math.max with 0 floors
it, and it is positive under the guard) and the consecutive-error count,
and leaves the whole state — in particular the request queue and the
active count — unchanged. -/
theorem backoff_fail_fast :
    ∀ (now : Int) (url : String) (reqId : Nat) (s : ConnectionManager)
      (b : BackoffState), s.backoffStates url = some b →
      now < b.nextRetryTime →
      (cmFetch now url reqId s).1 =
        some ⟨url, b.nextRetryTime - now, b.consecutiveErrors⟩ ∧
      (cmFetch now url reqId s).2 = s := by
  intro now url reqId s b hm hlt
  have hmax : max 0 (b.nextRetryTime - now) = b.nextRetryTime - now :=
    max_eq_right (by linarith)
  simp [cmFetch, isInBackoff, getBackoffDelay, hm, hlt, hmax]

/-- Witness for backoff_fail_fast: a key with 2 consecutive errors and
nextRetryTime 6000 probed at 4000 rejects with retryAfterMs 2000 and an
untouched state. -/
theorem backoff_fail_fast_witness :
    (cmFetch 4000 "/aggregates" 0
        { mkConnectionManager none with
          backoffStates := upd (fun _ => none) "/aggregates"
            (some ⟨2, 10000, 6000, 1000⟩) }).1 =
      some ⟨"/aggregates", 6000 - 4000, 2⟩
    ∧ (cmFetch 4000 "/aggregates" 0
        { mkConnectionManager none with
          backoffStates := upd (fun _ => none) "/aggregates"
            (some ⟨2, 10000, 6000, 1000⟩) }).2 =
      { mkConnectionManager none with
        backoffStates := upd (fun _ => none) "/aggregates"
          (some ⟨2, 10000, 6000, 1000⟩) } :=
  backoff_fail_fast 4000 "/aggregates" 0 _ ⟨2, 10000, 6000, 1000⟩
    (by simp [upd]) (by decide)

/-! ## Single-flight coalescing.  Two clients running getOrFetch on the
same key are each a sequence of two atomic blocks — the get lookup and
the synchronous prefix of fetchFromBackend — and the event loop
interleaves the four blocks in one of six orders. -/

/-- Progress of one client through getOrFetch up to its fetchFromBackend
call: pc 0 = about to run get, pc 1 = about to run fetchFromBackend,
pc 2 = done. -/
structure ClientRun where
  pc : Nat
  fetchRes : Option FetchStartResult
deriving Repr

/-- One atomic block of a client: its get lookup (moving to the fetch on
a miss and finishing on a hit), then its fetchFromBackend prefix. -/
def clientStep (now : Int) (url : String) :
    ClientRun × CacheManager → ClientRun × CacheManager
  | (⟨0, r⟩, s) =>
    let (g, s₁) := getStep now s url
    match g with
    | some _ => (⟨2, r⟩, s₁)
    | none => (⟨1, r⟩, s₁)
  | (⟨1, _⟩, s) =>
    let (fr, s₁) := fetchStart now s url
    (⟨2, some fr⟩, s₁)
  | (c, s) => (c, s)

/-- Run two clients A and B against a shared CacheManager under a
schedule: true runs the next block of A, false that of B. -/
def runTwoClients (now : Int) (url : String) :
    List Bool → ClientRun × ClientRun × CacheManager →
    ClientRun × ClientRun × CacheManager
  | [], st => st
  | b :: rest, (ca, cb, s) =>
    if b then
      let (ca₂, s₂) := clientStep now url (ca, s)
      runTwoClients now url rest (ca₂, cb, s₂)
    else
      let (cb₂, s₂) := clientStep now url (cb, s)
      runTwoClients now url rest (ca, cb₂, s₂)

/-- The six interleavings of two clients with two atomic blocks each. -/
def twoClientSchedules : List (List Bool) :=
  [[true, true, false, false], [true, false, true, false],
   [true, false, false, true], [false, true, true, false],
   [false, true, false, true], [false, false, true, true]]

/-- Claim C1: fetchFromBackend for a key with a pending request returns the
existing pending promise and changes nothing (so a key never holds two
pending fetches and no second upstream call starts); a first fetch for a
key with no pending request registers exactly one pending promise and
issues exactly one upstream call; and under every interleaving of two
clients calling getOrFetch on the same absent, non-backoff key, exactly
one upstream request is issued and both clients end up on the same
promise, one as starter and one as joiner. -/
theorem single_flight :
    (∀ (now : Int) (s : CacheManager) (url : String) (pid : Nat),
        s.backoffStates url = none → s.pendingRequests url = some pid →
        fetchStart now s url = (.joined pid, s))
    ∧ (∀ (now : Int) (s : CacheManager) (url : String),
        s.backoffStates url = none → s.pendingRequests url = none →
        (fetchStart now s url).1 = .started s.nextPromiseId ∧
        (fetchStart now s url).2.pendingRequests url =
          some s.nextPromiseId ∧
        (fetchStart now s url).2.upstreamCalls url =
          s.upstreamCalls url + 1)
    ∧ (∀ (now : Int) (s : CacheManager) (url : String) (sched : List Bool),
        s.cache url = none → s.pendingRequests url = none →
        s.backoffStates url = none → sched ∈ twoClientSchedules →
        (runTwoClients now url sched
            (⟨0, none⟩, ⟨0, none⟩, s)).2.2.upstreamCalls url =
          s.upstreamCalls url + 1 ∧
        ∃ pid,
          ((runTwoClients now url sched
              (⟨0, none⟩, ⟨0, none⟩, s)).1.fetchRes =
                some (.started pid) ∧
            (runTwoClients now url sched
              (⟨0, none⟩, ⟨0, none⟩, s)).2.1.fetchRes =
                some (.joined pid))
          ∨ ((runTwoClients now url sched
              (⟨0, none⟩, ⟨0, none⟩, s)).1.fetchRes =
                some (.joined pid) ∧
            (runTwoClients now url sched
              (⟨0, none⟩, ⟨0, none⟩, s)).2.1.fetchRes =
                some (.started pid))) := by
  have hjoin : ∀ (now : Int) (s : CacheManager) (url : String) (pid : Nat),
      s.backoffStates url = none → s.pendingRequests url = some pid →
      fetchStart now s url = (.joined pid, s) := by
    intro now s url pid hb hp
    simp [fetchStart, isInBackoff, hb, hp]
  refine ⟨hjoin, ?_, ?_⟩
  · intro now s url hb hp
    simp [fetchStart, isInBackoff, hb, hp, upd]
  · intro now s url sched hc hp hb hsched
    simp only [twoClientSchedules, List.mem_cons, List.not_mem_nil,
      or_false] at hsched
    rcases hsched with rfl | rfl | rfl | rfl | rfl | rfl <;>
      refine ⟨?_, s.nextPromiseId, ?_⟩ <;>
      simp [runTwoClients, clientStep, getStep, fetchStart, isInBackoff,
        hc, hp, hb, upd]

/-- Witness for single_flight: joining a pending promise, starting a
fresh one, and the A-B-A-B interleaving from the empty manager, where one
upstream call is made and both clients share promise 0. -/
theorem single_flight_witness :
    fetchStart 0
        { emptyCacheManager with
          pendingRequests := upd (fun _ => none) "/soe" (some 5) }
        "/soe" =
      (.joined 5,
        { emptyCacheManager with
          pendingRequests := upd (fun _ => none) "/soe" (some 5) })
    ∧ (fetchStart 0 emptyCacheManager "/soe").1 = .started 0
    ∧ (runTwoClients 0 "/soe" [true, false, true, false]
          (⟨0, none⟩, ⟨0, none⟩,
            emptyCacheManager)).2.2.upstreamCalls "/soe" =
        emptyCacheManager.upstreamCalls "/soe" + 1 :=
  ⟨single_flight.1 0 _ "/soe" 5 rfl (by simp [upd]),
   (single_flight.2.1 0 emptyCacheManager "/soe" rfl rfl).1,
   (single_flight.2.2 0 emptyCacheManager "/soe" [true, false, true, false]
      rfl rfl rfl (by simp [twoClientSchedules])).1⟩

theorem getStep_cache (now : Int) (s : CacheManager) (url : String) :
    (getStep now s url).2.cache = s.cache := by
  rcases hcu : s.cache url with _ | e
  · simp [getStep, hcu]
  · by_cases hv : isCacheValid now e
    · by_cases hst : isCacheStale now e = true ∧ s.staleUpdateQueue url = false
      · simp [getStep, hcu, hv, hst, queueStaleUpdate]
      · simp [getStep, hcu, hv, hst]
    · simp [getStep, hcu, hv]

theorem fetchStart_cache (now : Int) (s : CacheManager) (url : String) :
    (fetchStart now s url).2.cache = s.cache := by
  by_cases hb : isInBackoff now s.backoffStates url
  · rcases hcu : s.cache url with _ | e
    · simp [fetchStart, hb, hcu]
    · by_cases hv : isCacheValid now e <;> simp [fetchStart, hb, hcu, hv]
  · rcases hp : s.pendingRequests url with _ | pid
    · simp [fetchStart, hb, hp]
    · simp [fetchStart, hb, hp]

/-- The operations that touch a CacheManager during its lifetime: lookup,
explicit set, the synchronous fetch prefix, the success and failure
completions, the stale-refresh finally block and clearCache. -/
inductive CacheOp where
  | opGet (now : Int) (url : String)
  | opSet (cfg : ProxyConfigData) (now : Int) (url : String)
      (d : JSValue) (hdrs : List (String × String))
  | opFetchStart (now : Int) (url : String)
  | opFetchSuccess (cfg : ProxyConfigData) (now : Int) (url : String)
      (d : JSValue) (hdrs : List (String × String))
  | opFetchFailure (now : Int) (url : String)
  | opStaleDone (url : String)
  | opClear

/-- Apply a CacheOp to the manager state. -/
def applyOp : CacheOp → CacheManager → CacheManager
  | .opGet now url, s => (getStep now s url).2
  | .opSet cfg now url d hdrs, s => setStep cfg now url d hdrs s
  | .opFetchStart now url, s => (fetchStart now s url).2
  | .opFetchSuccess cfg now url d hdrs, s => fetchSuccess cfg now url d hdrs s
  | .opFetchFailure now url, s => fetchFailure now url s
  | .opStaleDone url, s => staleDone url s
  | .opClear, s => clearCacheStep s

/-- Claim C10: no CacheManager operation other than clearCache removes a key
from the cache map; a lookup of a TTL-expired entry returns null and
counts a miss but leaves the cache map unchanged; a failed fetch leaves
the cache map unchanged; clearCache empties it. -/
theorem expiry_never_evicts :
    (∀ (op : CacheOp) (s : CacheManager) (k : String),
        op ≠ CacheOp.opClear → s.cache k ≠ none →
        (applyOp op s).cache k ≠ none)
    ∧ (∀ (now : Int) (s : CacheManager) (url : String) (e : CacheEntry),
        s.cache url = some e → e.ttl ≤ now - e.timestamp →
        (getStep now s url).1 = none ∧
        (getStep now s url).2.cache = s.cache ∧
        (getStep now s url).2.cacheStats url =
          ((s.cacheStats url).1, (s.cacheStats url).2 + 1))
    ∧ (∀ (now : Int) (url : String) (s : CacheManager),
        (fetchFailure now url s).cache = s.cache)
    ∧ (∀ (s : CacheManager) (k : String),
        (clearCacheStep s).cache k = none) := by
  refine ⟨?_, ?_, ?_, fun s k => rfl⟩
  · intro op s k hne hsome
    cases op with
    | opGet now url =>
      simpa [applyOp, getStep_cache] using hsome
    | opSet cfg now url d hdrs =>
      by_cases hk : k = url
      · subst hk
        simp [applyOp, setStep, upd]
      · simpa [applyOp, setStep, upd, hk] using hsome
    | opFetchStart now url =>
      simpa [applyOp, fetchStart_cache] using hsome
    | opFetchSuccess cfg now url d hdrs =>
      by_cases hk : k = url
      · subst hk
        simp [applyOp, fetchSuccess, upd]
      · simpa [applyOp, fetchSuccess, upd, hk] using hsome
    | opFetchFailure now url =>
      simpa [applyOp, fetchFailure] using hsome
    | opStaleDone url =>
      simpa [applyOp, staleDone] using hsome
    | opClear => exact absurd rfl hne
  · intro now s url e hcu hexp
    have hv : isCacheValid now e = false := by
      simp [isCacheValid]
      linarith
    refine ⟨?_, getStep_cache now s url, ?_⟩
    · simp [getStep, hcu, hv]
    · simp [getStep, hcu, hv, upd]
  · intro now url s
    rfl

/-- Witness for expiry_never_evicts: a failed fetch for another key keeps
the stored entry; a lookup at time 40000 of an entry with ttl 30000 made
at 0 returns null, counts a miss and keeps the entry; clearCache drops
it. -/
theorem expiry_never_evicts_witness :
    (applyOp (CacheOp.opFetchFailure 40000 "/soe")
        { emptyCacheManager with
          cache := upd emptyCacheManager.cache "/aggregates"
            (some ⟨JSValue.jsObj 0, [], 0, 30000, 10000⟩) }).cache
      "/aggregates" ≠ none
    ∧ (getStep 40000
        { emptyCacheManager with
          cache := upd emptyCacheManager.cache "/aggregates"
            (some ⟨JSValue.jsObj 0, [], 0, 30000, 10000⟩) }
        "/aggregates").1 = none
    ∧ (clearCacheStep
        { emptyCacheManager with
          cache := upd emptyCacheManager.cache "/aggregates"
            (some ⟨JSValue.jsObj 0, [], 0, 30000, 10000⟩) }).cache
      "/aggregates" = none := by
  have hcu : ({ emptyCacheManager with
      cache := upd emptyCacheManager.cache "/aggregates"
        (some ⟨JSValue.jsObj 0, [], 0, 30000, 10000⟩) } :
        CacheManager).cache "/aggregates"
      = some ⟨JSValue.jsObj 0, [], 0, 30000, 10000⟩ := by simp [upd]
  refine ⟨?_, ?_, ?_⟩
  · exact expiry_never_evicts.1 (CacheOp.opFetchFailure 40000 "/soe") _
      "/aggregates" (by intro h; cases h) (by rw [hcu]; intro h; cases h)
  · exact (expiry_never_evicts.2.1 40000 _ "/aggregates" _ hcu (by decide)).1
  · exact expiry_never_evicts.2.2.2 _ "/aggregates"

/-! ## Response validation (src/responseValidator.ts). -/

/-- A configuration with the loader defaults (TTL 300 s, stale time 60 s,
slow-request timeout 5000 ms) and no per-path overrides. -/
def defaultTestConfig : ProxyConfigData where
  urlConfigs := fun _ => none
  defaultTTL := 300
  defaultStaleTime := 60
  slowRequestTimeout := 5000

/-- MIN_CSV_COMMAS = 4. -/
def MIN_CSV_COMMAS : Nat := 4

/-- The JSON endpoints whose payload must not be null. -/
def jsonEndpoints : List String :=
  ["/aggregates", "/soe", "/strings", "/freq", "/fans/pw", "/version"]

/-- Number of commas in a string (data.match(/,/g) || []).length. -/
def commaCount (s : String) : Nat :=
  (s.data.filter (fun c => c = ',')).length

/-- validateJsonEndpoint: reject data == null (null or undefined), the
literal string "null", and any value whose typeof is not object. -/
def validateJsonEndpoint (d : JSValue) : Bool :=
  if d = JSValue.jsNull || d = JSValue.jsUndefined then false
  else if d = JSValue.jsStr "null" then false
  else if jsTypeof d != "object" then false
  else true

/-- validateCsvEndpoint: reject non-strings, then strings with fewer than
MIN_CSV_COMMAS commas. -/
def validateCsvEndpoint (d : JSValue) : Bool :=
  match d with
  | .jsStr s => if commaCount s < MIN_CSV_COMMAS then false else true
  | _ => false

/-- ResponseValidator.validate: JSON endpoints get the JSON rule, the
/csv/v2 path the CSV rule, all other paths are accepted. -/
def validate (path : String) (d : JSValue) : Bool :=
  if jsonEndpoints.contains path then validateJsonEndpoint d
  else if path = "/csv/v2" then validateCsvEndpoint d
  else true

/-- Modelled from the spec: the fetch-completion path of the later cache
manager revision, which is absent from src (src holds its
ResponseValidator and an earlier fetchFromBackend without validation).
Spec 4.1: before storing, the cache consults shouldCache(path, data);
rejected responses do not replace the existing entry, must not notify
plugins, and cause the fetch to be surfaced as a failure to waiters; the
pending entry is still released by the finally block. -/
def fetchSuccessValidated (cfg : ProxyConfigData) (now : Int)
    (path url : String) (d : JSValue) (hdrs : List (String × String))
    (s : CacheManager) : Bool × CacheManager :=
  if validate path d then (true, fetchSuccess cfg now url d hdrs s)
  else (false, { s with pendingRequests := upd s.pendingRequests url none })

/-- Claim C7: for a protected JSON path, null, the string "null" and any
non-object payload are rejected; for /csv/v2, non-strings and strings
with fewer than 4 commas are rejected; and a rejected response leaves the
cache map and the plugin-notification log unchanged while the fetch is
surfaced as a failure. -/
theorem validation_suppression :
    (∀ (path : String) (d : JSValue), jsonEndpoints.contains path = true →
        validate path JSValue.jsNull = false ∧
        validate path (JSValue.jsStr "null") = false ∧
        (jsTypeof d ≠ "object" → validate path d = false))
    ∧ (∀ d : JSValue, jsTypeof d ≠ "string" →
        validate "/csv/v2" d = false)
    ∧ (∀ s : String, commaCount s < 4 →
        validate "/csv/v2" (JSValue.jsStr s) = false)
    ∧ (∀ (cfg : ProxyConfigData) (now : Int) (path url : String)
        (d : JSValue) (hdrs : List (String × String)) (s : CacheManager),
        validate path d = false →
        (fetchSuccessValidated cfg now path url d hdrs s).1 = false ∧
        (fetchSuccessValidated cfg now path url d hdrs s).2.cache =
          s.cache ∧
        (fetchSuccessValidated cfg now path url d hdrs s).2.notifyLog =
          s.notifyLog) := by
  have hcsv : "/csv/v2" ∉ jsonEndpoints := by decide
  refine ⟨?_, ?_, ?_, ?_⟩
  · intro path d h
    have hmem : path ∈ jsonEndpoints := by simpa using h
    refine ⟨by simp [validate, hmem, validateJsonEndpoint], ?_, ?_⟩
    · simp [validate, hmem, validateJsonEndpoint, jsTypeof]
    · intro hobj
      have hv : validate path d = validateJsonEndpoint d := by
        simp [validate, hmem]
      rw [hv]
      cases d <;> simp_all [validateJsonEndpoint, jsTypeof]
  · intro d hstr
    cases d <;> simp_all [validate, hcsv, validateCsvEndpoint, jsTypeof]
  · intro s hcc
    simp [validate, hcsv, validateCsvEndpoint, MIN_CSV_COMMAS, hcc]
  · intro cfg now path url d hdrs s hval
    simp [fetchSuccessValidated, hval]

/-- Witness for validation_suppression: /aggregates rejects null and the
number 7; /csv/v2 rejects the short CSV "a,b"; and the rejected "a,b"
response on /csv/v2 leaves a manager with a stored entry and a non-empty
notification log untouched while reporting failure. -/
theorem validation_suppression_witness :
    validate "/aggregates" JSValue.jsNull = false
    ∧ validate "/aggregates" (JSValue.jsNum 7) = false
    ∧ validate "/csv/v2" (JSValue.jsStr "a,b") = false
    ∧ (fetchSuccessValidated defaultTestConfig 50 "/csv/v2" "/csv/v2"
        (JSValue.jsStr "a,b") []
        { emptyCacheManager with
          cache := upd emptyCacheManager.cache "/csv/v2"
            (some ⟨JSValue.jsStr "1,2,3,4,5", [], 0, 60000, 60000⟩),
          notifyLog := [("/csv/v2", JSValue.jsStr "1,2,3,4,5")] }).1 = false
    ∧ (fetchSuccessValidated defaultTestConfig 50 "/csv/v2" "/csv/v2"
        (JSValue.jsStr "a,b") []
        { emptyCacheManager with
          cache := upd emptyCacheManager.cache "/csv/v2"
            (some ⟨JSValue.jsStr "1,2,3,4,5", [], 0, 60000, 60000⟩),
          notifyLog := [("/csv/v2", JSValue.jsStr "1,2,3,4,5")] }).2.cache
        "/csv/v2" = some ⟨JSValue.jsStr "1,2,3,4,5", [], 0, 60000, 60000⟩ := by
  have h1 := (validation_suppression.1 "/aggregates" (JSValue.jsNum 7)
    (by decide)).1
  have h2 := (validation_suppression.1 "/aggregates" (JSValue.jsNum 7)
    (by decide)).2.2 (by decide)
  have h3 := validation_suppression.2.2.1 "a,b" (by decide)
  have h4 := validation_suppression.2.2.2 defaultTestConfig 50 "/csv/v2"
    "/csv/v2" (JSValue.jsStr "a,b") []
    { emptyCacheManager with
      cache := upd emptyCacheManager.cache "/csv/v2"
        (some ⟨JSValue.jsStr "1,2,3,4,5", [], 0, 60000, 60000⟩),
      notifyLog := [("/csv/v2", JSValue.jsStr "1,2,3,4,5")] } h3
  refine ⟨h1, h2, h3, h4.1, ?_⟩
  rw [h4.2.1]
  simp [upd]

/-! ## The proxy route for non-GET requests (src/server.ts). -/

/-- The non-GET branch of the catch-all proxy route: req.method !== GET
forwards the request through cacheManager.fetchFromBackend(fullUrl) and
relays the resulting data and headers.  With a successful backend
response the pending fetch completes through fetchSuccess (which runs
this.cache.set(fullUrl, entry)). -/
def handleNonGetSuccess (cfg : ProxyConfigData) (now : Int) (url : String)
    (d : JSValue) (hdrs : List (String × String)) (s : CacheManager) :
    CacheManager :=
  let (r, s₁) := fetchStart now s url
  match r with
  | .started _ => fetchSuccess cfg now url d hdrs s₁
  | _ => s₁

/-- Claim C8 (divergence witness): processing a non-GET request whose backend
fetch succeeds STORES an entry for its URL in the cache map — server.ts
forwards non-GET requests through CacheManager.fetchFromBackend, whose
success path runs this.cache.set(fullUrl, entry), although the in-route
comment says only GET requests are handled with caching.  From the empty
manager, a POST to /data leaves the fetched entry in the cache. -/
theorem non_get_request_stores_entry :
    (handleNonGetSuccess defaultTestConfig 0 "/data" (JSValue.jsObj 0) []
        emptyCacheManager).cache "/data" =
      some ⟨JSValue.jsObj 0, [], 0, 300000, 60000⟩
    ∧ emptyCacheManager.cache "/data" = none := by
  constructor
  · simp [handleNonGetSuccess, fetchStart, isInBackoff, emptyCacheManager,
      fetchSuccess, recordSuccessB, upd, getCacheTTL, getStaleTime,
      defaultTestConfig]
  · rfl

/-! ## Request-duration telemetry.  Spec section 9 notes that
CacheEntry.requestDurations is present only in a later revision; that
revision is absent from src, so the ring and its statistics are modelled
from the spec. -/

/-- Modelled from the spec: the bound N = 25 of the requestDurations
ring. -/
def REQUEST_DURATION_WINDOW : Nat := 25

/-- Modelled from the spec: recording one fetch duration in a per-key
requestDurations ring — append the new duration, dropping the oldest
elements beyond N = 25. -/
def pushDuration (ring : List Int) (d : Int) : List Int :=
  let r := ring ++ [d]
  if REQUEST_DURATION_WINDOW < r.length then
    r.drop (r.length - REQUEST_DURATION_WINDOW)
  else r

/-- The ring after recording a whole history of fetch durations, oldest
first, starting from the empty ring of a fresh entry. -/
def durationsOf (ds : List Int) : List Int :=
  ds.foldl pushDuration []

/-- Modelled from the spec: the per-key statistic avgResponseMs, the
arithmetic mean of the requestDurations window. -/
def avgResponseMs (ring : List Int) : ℚ :=
  (ring.sum : ℚ) / (ring.length : ℚ)

/-- Modelled from the spec: the per-key statistic maxResponseMs, the
maximum of the requestDurations window. -/
def maxResponseMs (ring : List Int) : Int :=
  ring.foldl max 0

theorem pushDuration_eq (ring : List Int) (d : Int) :
    pushDuration ring d =
      (ring ++ [d]).drop ((ring ++ [d]).length - 25) := by
  simp only [pushDuration, REQUEST_DURATION_WINDOW]
  split
  · rfl
  · next h => rw [Nat.sub_eq_zero_of_le (Nat.not_lt.mp h), List.drop_zero]

theorem pushDuration_len (ring : List Int) (d : Int)
    (h : ring.length ≤ 25) : (pushDuration ring d).length ≤ 25 := by
  rw [pushDuration_eq]
  simp only [List.length_drop, List.length_append, List.length_singleton]
  omega

theorem foldl_pushDuration_window (ds : List Int) :
    ∀ ring : List Int, ring.length ≤ 25 →
      List.foldl pushDuration ring ds =
        (ring ++ ds).drop ((ring ++ ds).length - 25) := by
  induction ds with
  | nil =>
    intro ring h
    simp [Nat.sub_eq_zero_of_le h]
  | cons d rest ih =>
    intro ring h
    rw [List.foldl_cons, ih _ (pushDuration_len ring d h), pushDuration_eq]
    have hk : (ring ++ [d]).length - 25 ≤ (ring ++ [d]).length :=
      Nat.sub_le _ _
    rw [← List.drop_append_of_le_length hk, List.drop_drop]
    have hl : (ring ++ [d]) ++ rest = ring ++ d :: rest := by
      simp
    have hlen : (ring ++ [d]).length = ring.length + 1 := by simp
    rw [hl]
    congr 1
    simp only [List.length_drop, List.length_append, List.length_cons,
      List.length_nil, hlen]
    omega

/-- Claim C9: recording any history of fetch durations leaves a
requestDurations ring that is exactly the most recent 25 durations (at
most 25 elements, oldest dropped first — a full ring shifts out its head
on each push), and the per-key statistics on that ring are its arithmetic
mean (avgResponseMs) and its maximum (maxResponseMs). -/
theorem duration_ring_stats :
    (∀ ds : List Int, durationsOf ds = ds.drop (ds.length - 25))
    ∧ (∀ ds : List Int, (durationsOf ds).length ≤ 25)
    ∧ (∀ (ring : List Int) (d : Int), ring.length = 25 →
        pushDuration ring d = ring.drop 1 ++ [d])
    ∧ (∀ ds : List Int,
        avgResponseMs (durationsOf ds) =
          ((ds.drop (ds.length - 25)).sum : ℚ) /
            ((ds.drop (ds.length - 25)).length : ℚ))
    ∧ (∀ ds : List Int,
        maxResponseMs (durationsOf ds) =
          (ds.drop (ds.length - 25)).foldl max 0) := by
  have hwin : ∀ ds : List Int, durationsOf ds = ds.drop (ds.length - 25) := by
    intro ds
    have := foldl_pushDuration_window ds [] (by simp)
    simpa [durationsOf] using this
  refine ⟨hwin, ?_, ?_, ?_, ?_⟩
  · intro ds
    rw [hwin]
    simp only [List.length_drop]
    omega
  · intro ring d h
    rw [pushDuration_eq]
    have h1 : (ring ++ [d]).length - 25 = 1 := by
      simp [h]
    rw [h1, List.drop_append_of_le_length (by omega)]
  · intro ds
    rw [hwin]
    rfl
  · intro ds
    rw [hwin]
    rfl

/-- Witness for duration_ring_stats: a 26-element history keeps the last
25 durations, a full ring of 25 ones shifts out its head when 7 is
pushed, and the statistics of the ring [2, 4] are mean 3 and maximum 4. -/
theorem duration_ring_stats_witness :
    durationsOf (List.replicate 26 (5:Int)) =
      (List.replicate 26 (5:Int)).drop 1
    ∧ (durationsOf (List.replicate 26 (5:Int))).length ≤ 25
    ∧ pushDuration (List.replicate 25 (1:Int)) 7 =
        (List.replicate 25 (1:Int)).drop 1 ++ [7]
    ∧ avgResponseMs (durationsOf [2, 4]) = 3
    ∧ maxResponseMs (durationsOf [2, 4]) = 4 := by
  refine ⟨?_, duration_ring_stats.2.1 _,
    duration_ring_stats.2.2.1 _ 7 (by simp), ?_, ?_⟩
  · have := duration_ring_stats.1 (List.replicate 26 (5:Int))
    simpa using this
  · rw [duration_ring_stats.2.2.2.1 [2, 4]]
    norm_num
  · rw [duration_ring_stats.2.2.2.2 [2, 4]]
    decide

end PypowerwallProxy
